import Mathlib

/-!
Shallow embedding of croatiangrn/go-redis-leaderboard (leaderboard.go, redis.go).

Go functions returning `(value, error)` are modelled as `Except GoErr α`;
every redis client call is modelled through a record of state-passing
functions `RedisCli σ`, so that backend failures and call independence can
be stated.  The deterministic client `pureCli` interprets the calls against
an in-memory model of one redis sorted set plus one hash, with redis
semantics (ZREVRANK counts strictly-higher entries, ties broken by
descending lexical member order; absent members yield the redis.Nil error).
-/

/-- The Go `error` values this package can observe: `redis.Nil` (redis not
found), any other backend failure (carrying an opaque code so that
"propagated unmodified" is expressible), the package sentinel
`ErrIncrementByMustBePositiveInteger` (leaderboard.go line 25), and the
error of `base64.StdEncoding.DecodeString` on corrupt input. -/
inductive GoErr where
  | redisNil : GoErr
  | backend : Nat → GoErr
  | errIncrementByMustBePositiveInteger : GoErr
  | base64CorruptInput : GoErr
deriving DecidableEq

/-- The redis client operations used by leaderboard.go, as state-passing
functions.  Arguments mirror the go-redis call sites: each takes the key
(leaderboard or hash name) exactly as the Go code passes it. -/
structure RedisCli (σ : Type) where
  zRevRank : σ → String → String → Except GoErr Int × σ
  zScore : σ → String → String → Except GoErr Int × σ
  zAdd : σ → String → String → Int → Except GoErr Int × σ
  zIncrBy : σ → String → Int → String → Except GoErr Int × σ
  zCard : σ → String → Except GoErr Int × σ
  zCount : σ → String → Except GoErr Int × σ
  zRevRangeWithScores : σ → String → Int → Int → Except GoErr (List (String × Int)) × σ
  hGet : σ → String → String → Except GoErr (List Char) × σ
  hSet : σ → String → String → List Char → Except GoErr Int × σ

/-- leaderboard.go line 14. -/
def DevMode : String := "dev"

/-- leaderboard.go line 15. -/
def StagingMode : String := "staging"

/-- leaderboard.go line 16. -/
def ProductionMode : String := "prod"

/-- leaderboard.go line 18. -/
def UnrankedMember : Int := -1

/-- leaderboard.go line 19. -/
def DefaultPageSize : Int := 25

/-- leaderboard.go lines 28-32: membership in the `allowedModes` map. -/
def allowedModes (mode : String) : Bool :=
  mode == DevMode || mode == StagingMode || mode == ProductionMode

/-- leaderboard.go lines 34-39: membership in the `allowedPageSizes` map. -/
def allowedPageSizes (n : Int) : Bool :=
  n == 10 || n == 25 || n == 50 || n == 100

/-- redis.go lines 8-12 (the `DB` field is an int). -/
structure RedisSettings where
  host : String
  password : String
  db : Int
deriving DecidableEq

/-- leaderboard.go lines 42-47.  `AdditionalInfo json.RawMessage` is a Go
byte slice which may be nil: modelled as `Option (List Nat)` (bytes). -/
structure User where
  userID : String
  score : Int
  rank : Int
  additionalInfo : Option (List Nat)
deriving DecidableEq

/-- leaderboard.go lines 49-56.  The `redisCli *redis.Client` handle is not
part of the state here; operations take a `RedisCli σ` and a `σ` instead. -/
structure Leaderboard where
  redisSettings : RedisSettings
  pageSize : Int
  mode : String
  leaderboardName : String
  userInfoHashName : String
deriving DecidableEq

/-- leaderboard.go lines 64-76.  `connectToRedis` (redis.go) only builds a
client handle, which the model keeps outside the state.  Note lines 66-68
normalize the local variable `mode`, which the struct literal on line 75
then never stores: the `mode` field is left at its zero value `""`. -/
def NewLeaderboard (redisSettings : RedisSettings) (mode leaderboardName userInfoStorageHash : String) (pageSize : Int) : Except GoErr Leaderboard :=
  let _modeNormalized := if allowedModes mode then mode else DevMode
  let pageSize := if allowedPageSizes pageSize then pageSize else DefaultPageSize
  Except.ok { redisSettings := redisSettings, pageSize := pageSize, mode := "", leaderboardName := leaderboardName, userInfoHashName := userInfoStorageHash }

/-- leaderboard.go lines 263-270: ZRevRank, error propagated with value 0,
otherwise 0-based rank plus one. -/
def getMemberRank (cli : RedisCli σ) (s : σ) (leaderboardName userID : String) : Except GoErr Int × σ :=
  match cli.zRevRank s leaderboardName userID with
  | (Except.error e, s1) => (Except.error e, s1)
  | (Except.ok rankInt64, s1) => (Except.ok (rankInt64 + 1), s1)

/-- leaderboard.go lines 272-281: identical body to `getMemberRank`. -/
def updateMemberRank (cli : RedisCli σ) (s : σ) (leaderboardName userID : String) : Except GoErr Int × σ :=
  match cli.zRevRank s leaderboardName userID with
  | (Except.error e, s1) => (Except.error e, s1)
  | (Except.ok res, s1) => (Except.ok (res + 1), s1)

/-- leaderboard.go lines 283-290: ZScore; the float score is truncated to
int, modelled as an integer score throughout. -/
def getMemberScore (cli : RedisCli σ) (s : σ) (leaderboardName userID : String) : Except GoErr Int × σ :=
  match cli.zScore s leaderboardName userID with
  | (Except.error e, s1) => (Except.error e, s1)
  | (Except.ok floatScore, s1) => (Except.ok floatScore, s1)

/-- leaderboard.go lines 292-304: ZAdd of one member, result discarded. -/
def insertMemberScore (cli : RedisCli σ) (s : σ) (leaderboardName userID : String) (score : Int) : Except GoErr Unit × σ :=
  match cli.zAdd s leaderboardName userID score with
  | (Except.error e, s1) => (Except.error e, s1)
  | (Except.ok _, s1) => (Except.ok (), s1)

/-- leaderboard.go lines 306-317: the guard is `incrementBy < 0` (zero is
accepted and reaches the store), then ZIncrBy. -/
def incrementMemberScore (cli : RedisCli σ) (s : σ) (leaderboardName userID : String) (incrementBy : Int) : Except GoErr Int × σ :=
  if incrementBy < 0 then
    (Except.error GoErr.errIncrementByMustBePositiveInteger, s)
  else
    match cli.zIncrBy s leaderboardName incrementBy userID with
    | (Except.error e, s1) => (Except.error e, s1)
    | (Except.ok res, s1) => (Except.ok res, s1)

/-- leaderboard.go lines 79-118 (`FirstOrInsertMember`).  When the rank
lookup fails with `redis.Nil`, `currentRank` keeps the value 0 returned by
`getMemberRank` alongside its error, so the insert path runs. -/
def FirstOrInsertMember (cli : RedisCli σ) (lb : Leaderboard) (s : σ) (userID : String) (score : Int) : Except GoErr User × σ :=
  let insertPath : σ → Except GoErr User × σ := fun s1 =>
    match insertMemberScore cli s1 lb.leaderboardName userID score with
    | (Except.error e, s2) => (Except.error e, s2)
    | (Except.ok _, s2) =>
      match updateMemberRank cli s2 lb.leaderboardName userID with
      | (Except.error e, s3) => (Except.error e, s3)
      | (Except.ok rank, s3) =>
        (Except.ok { userID := userID, score := score, rank := rank, additionalInfo := none }, s3)
  match getMemberRank cli s lb.leaderboardName userID with
  | (Except.error e, s1) =>
    if e = GoErr.redisNil then
      insertPath s1
    else
      (Except.error e, s1)
  | (Except.ok currentRank, s1) =>
    if currentRank > 0 then
      match getMemberScore cli s1 lb.leaderboardName userID with
      | (Except.error e, s2) => (Except.error e, s2)
      | (Except.ok currentScore, s2) =>
        (Except.ok { userID := userID, score := currentScore, rank := currentRank, additionalInfo := none }, s2)
    else
      insertPath s1

/-- The double-quote character, kept as a named constant. -/
def quoteChar : Char := Char.ofNat 34

/-- The backslash character, kept as a named constant. -/
def backslashChar : Char := Char.ofNat 92

/-- Character of the standard base64 alphabet at index `n` (indices 64 and
above collapse into the final alphabet character; callers stay below 64).
Models the `encodeStd` table of Go `encoding/base64`. -/
def b64char (n : Nat) : Char :=
  if n < 26 then Char.ofNat (65 + n)
  else if n < 52 then Char.ofNat (71 + n)
  else if n < 62 then Char.ofNat (n - 4)
  else if n = 62 then '+'
  else '/'

/-- Index of a character in the standard base64 alphabet, `none` for
characters outside it. -/
def b64val (c : Char) : Option Nat :=
  let n := c.toNat
  if 65 ≤ n ∧ n ≤ 90 then some (n - 65)
  else if 97 ≤ n ∧ n ≤ 122 then some (n - 71)
  else if 48 ≤ n ∧ n ≤ 57 then some (n + 4)
  else if c = '+' then some 62
  else if c = '/' then some 63
  else none

/-- Go `base64.StdEncoding.EncodeToString` over bytes, producing the padded
four-character quantum per up-to-three input bytes. -/
def b64encode : List Nat → List Char
  | [] => []
  | [b0] => [b64char (b0 / 4), b64char (b0 % 4 * 16), '=', '=']
  | [b0, b1] => [b64char (b0 / 4), b64char (b0 % 4 * 16 + b1 / 16), b64char (b1 % 16 * 4), '=']
  | b0 :: b1 :: b2 :: rest =>
    b64char (b0 / 4) :: b64char (b0 % 4 * 16 + b1 / 16) :: b64char (b1 % 16 * 4 + b2 / 64)
      :: b64char (b2 % 64) :: b64encode rest

/-- Go `base64.StdEncoding.DecodeString`: four-character quanta, padding
permitted only in the final quantum, invalid characters rejected, trailing
bits ignored (the non-strict default). -/
def b64decode : List Char → Option (List Nat)
  | [] => some []
  | c0 :: c1 :: c2 :: c3 :: rest =>
    if rest = [] ∧ c2 = '=' ∧ c3 = '=' then
      match b64val c0, b64val c1 with
      | some v0, some v1 => some [v0 * 4 + v1 / 16]
      | _, _ => none
    else if rest = [] ∧ c3 = '=' then
      match b64val c0, b64val c1, b64val c2 with
      | some v0, some v1, some v2 => some [v0 * 4 + v1 / 16, v1 % 16 * 16 + v2 / 4]
      | _, _, _ => none
    else
      match b64val c0, b64val c1, b64val c2, b64val c3, b64decode rest with
      | some v0, some v1, some v2, some v3, some ds =>
        some ((v0 * 4 + v1 / 16) :: (v1 % 16 * 16 + v2 / 4) :: (v2 % 4 * 64 + v3) :: ds)
      | _, _, _, _, _ => none
  | _ => none

/-- Go `strconv.Unquote` restricted to the strings this package ever
stores: a double-quoted string whose body is escape-free printable ASCII
is stripped of its quotes; anything else is rejected (the Go call site
discards the error and keeps `""`). -/
def goUnquote (cs : List Char) : Option (List Char) :=
  if 2 ≤ cs.length ∧ cs.head? = some quoteChar ∧ cs.getLast? = some quoteChar
      ∧ ((cs.drop 1).dropLast.all fun c =>
          c != quoteChar && c != backslashChar && decide (32 ≤ c.toNat) && decide (c.toNat < 127)) then
    some (cs.drop 1).dropLast
  else
    none

/-- Go `json.Marshal` applied to a (pointer to a) byte slice, as in
`UpsertMemberInfo`: a nil slice marshals to `null`, otherwise to the
standard-base64 string in double quotes. -/
def jsonMarshalBytes : Option (List Nat) → List Char
  | none => ['n', 'u', 'l', 'l']
  | some bs => quoteChar :: (b64encode bs ++ [quoteChar])

/-- leaderboard.go lines 184-197 (`GetMemberInfo`): HGet, then
`strconv.Unquote` with the error discarded (yielding `""` on failure),
then base64 decoding whose failure propagates. -/
def GetMemberInfo (cli : RedisCli σ) (lb : Leaderboard) (s : σ) (userID : String) : Except GoErr (List Nat) × σ :=
  match cli.hGet s lb.userInfoHashName userID with
  | (Except.error e, s1) => (Except.error e, s1)
  | (Except.ok stringifiedData, s1) =>
    let unquotedText := (goUnquote stringifiedData).getD []
    match b64decode unquotedText with
    | none => (Except.error GoErr.base64CorruptInput, s1)
    | some raw => (Except.ok raw, s1)

/-- leaderboard.go lines 209-220 (`UpsertMemberInfo`): marshal the byte
slice, HSet the resulting string. -/
def UpsertMemberInfo (cli : RedisCli σ) (lb : Leaderboard) (s : σ) (userID : String) (additionalData : Option (List Nat)) : Except GoErr Unit × σ :=
  let data := jsonMarshalBytes additionalData
  match cli.hSet s lb.userInfoHashName userID data with
  | (Except.error e, s1) => (Except.error e, s1)
  | (Except.ok _, s1) => (Except.ok (), s1)

/-- leaderboard.go lines 120-162 (`GetMember`).  When the member exists but
the score fetch fails, the code tests `errors.Is(err, redis.Nil)` against
the rank-lookup error variable `err` (which is nil on this path, never the
score error `scoreErr`), so `!errors.Is(err, redis.Nil)` holds and the
function returns the zero `User{}` together with the nil `err`: the score
fetch failure is swallowed.  Metadata fetch errors other than `redis.Nil`
do propagate (the inner `:=` rebinds `err` to the metadata error). -/
def GetMember (cli : RedisCli σ) (lb : Leaderboard) (s : σ) (userID : String) (withInfo : Bool) : Except GoErr User × σ :=
  match getMemberRank cli s lb.leaderboardName userID with
  | (Except.error e, s1) =>
    if e = GoErr.redisNil then
      (Except.ok { userID := userID, score := 0, rank := UnrankedMember, additionalInfo := none }, s1)
    else
      (Except.error e, s1)
  | (Except.ok rank, s1) =>
    if rank ≠ UnrankedMember then
      match getMemberScore cli s1 lb.leaderboardName userID with
      | (Except.error _scoreErr, s2) =>
        (Except.ok { userID := "", score := 0, rank := 0, additionalInfo := none }, s2)
      | (Except.ok memberScore, s2) =>
        if withInfo then
          match GetMemberInfo cli lb s2 userID with
          | (Except.error e2, s3) =>
            if e2 = GoErr.redisNil then
              (Except.ok { userID := userID, score := memberScore, rank := rank, additionalInfo := none }, s3)
            else
              (Except.error e2, s3)
          | (Except.ok message, s3) =>
            (Except.ok { userID := userID, score := memberScore, rank := rank, additionalInfo := some message }, s3)
        else
          (Except.ok { userID := userID, score := memberScore, rank := rank, additionalInfo := none }, s2)
    else
      (Except.ok { userID := userID, score := 0, rank := rank, additionalInfo := none }, s1)

/-- leaderboard.go lines 164-182 (`IncrementMemberScore`): increment, then
re-query the rank, propagating either failure. -/
def IncrementMemberScore (cli : RedisCli σ) (lb : Leaderboard) (s : σ) (userID : String) (incrementBy : Int) : Except GoErr User × σ :=
  match incrementMemberScore cli s lb.leaderboardName userID incrementBy with
  | (Except.error e, s1) => (Except.error e, s1)
  | (Except.ok newScore, s1) =>
    match updateMemberRank cli s1 lb.leaderboardName userID with
    | (Except.error e, s2) => (Except.error e, s2)
    | (Except.ok rank, s2) =>
      (Except.ok { userID := userID, score := newScore, rank := rank, additionalInfo := none }, s2)

/-- `int(math.Ceil(float64 a / float64 b))` for a positive divisor in the
exact float range: the ceiling of `a / b`, computed as the floor (euclidean
division by a positive divisor) of `(a + b - 1) / b`. -/
def goCeilDiv (a b : Int) : Int := (a + b - 1) / b

/-- leaderboard.go lines 231-240 (`TotalPages`): `pages` starts at 0 and is
only assigned when ZCount succeeds; a count failure therefore yields 0. -/
def TotalPages (cli : RedisCli σ) (lb : Leaderboard) (s : σ) : Int × σ :=
  match cli.zCount s lb.leaderboardName with
  | (Except.error _, s1) => (0, s1)
  | (Except.ok total, s1) => (goCeilDiv total lb.pageSize, s1)

/-- The zero value `User{}` of Go. -/
def zeroUser : User := { userID := "", score := 0, rank := 0, additionalInfo := none }

/-- The loop of leaderboard.go lines 327-348: for each member of the range
result, re-query rank and score (propagating failures) and append. -/
def membersLoop (cli : RedisCli σ) (s : σ) (leaderboard : String) (values : List (String × Int)) (users : List User) : Except GoErr (List User) × σ :=
  match values with
  | [] => (Except.ok users, s)
  | (userID, _) :: rest =>
    match getMemberRank cli s leaderboard userID with
    | (Except.error e, s1) => (Except.error e, s1)
    | (Except.ok rank, s1) =>
      match getMemberScore cli s1 leaderboard userID with
      | (Except.error e, s2) => (Except.error e, s2)
      | (Except.ok score, s2) =>
        membersLoop cli s2 leaderboard rest
          (users ++ [{ userID := userID, score := score, rank := rank, additionalInfo := none }])

/-- leaderboard.go lines 319-351 (`getMembersByRange`).  Note line 320:
`users := make([]User, pageSize)` pre-fills the slice with `pageSize` zero
`User{}` values, and the loop appends after them. -/
def getMembersByRange (cli : RedisCli σ) (s : σ) (leaderboard : String) (pageSize startOffset endOffset : Int) : Except GoErr (List User) × σ :=
  let users := List.replicate pageSize.toNat zeroUser
  match cli.zRevRangeWithScores s leaderboard startOffset endOffset with
  | (Except.error e, s1) => (Except.error e, s1)
  | (Except.ok values, s1) => membersLoop cli s1 leaderboard values users

/-- leaderboard.go lines 242-259 (`GetLeaders`): clamp below to 1, compare
against one `TotalPages` call and, when above it, reassign from a second
`TotalPages` call, then compute the offsets and delegate. -/
def GetLeaders (cli : RedisCli σ) (lb : Leaderboard) (s : σ) (page : Int) : Except GoErr (List User) × σ :=
  let page := if page < 1 then 1 else page
  let (tp1, s1) := TotalPages cli lb s
  let (page, s2) :=
    if page > tp1 then
      TotalPages cli lb s1
    else
      (page, s1)
  let redisIndex := page - 1
  let startOffset := redisIndex * lb.pageSize
  let startOffset := if startOffset < 0 then 0 else startOffset
  let endOffset := startOffset + lb.pageSize - 1
  getMembersByRange cli s2 lb.leaderboardName lb.pageSize startOffset endOffset


/-! ## A deterministic in-memory redis: one sorted set and one hash -/

/-- Association-list lookup by key (first match). -/
def lookupA (k : String) : List (String × α) → Option α
  | [] => none
  | (k1, v) :: rest => if k1 = k then some v else lookupA k rest

/-- Association-list update: replace the first binding of `k`, or append. -/
def setAssoc (k : String) (v : α) : List (String × α) → List (String × α)
  | [] => [(k, v)]
  | (k1, v1) :: rest => if k1 = k then (k, v) :: rest else (k1, v1) :: setAssoc k v rest

/-- Strict lexicographic order on byte sequences, as redis compares sorted
set members (memcmp order). -/
def lexLt : List Nat → List Nat → Bool
  | [], [] => false
  | [], _ :: _ => true
  | _ :: _, [] => false
  | a :: as, b :: bs => if a < b then true else if b < a then false else lexLt as bs

/-- Strict member order used by a redis sorted set for equal scores. -/
def memLt (a b : String) : Bool :=
  lexLt (a.data.map Char.toNat) (b.data.map Char.toNat)

/-- ZREVRANK of a member holding score `sc`: the number of entries strictly
ahead of it in descending order (higher score, or equal score and
lexically greater member). -/
def zrevCount (scores : List (String × Int)) (member : String) (sc : Int) : Nat :=
  (scores.filter fun p => decide (sc < p.2) || (decide (p.2 = sc) && memLt member p.1)).length

/-- Insertion into a list sorted for ZREVRANGE: descending score, ties in
descending lexical member order. -/
def insertDesc (x : String × Int) : List (String × Int) → List (String × Int)
  | [] => [x]
  | y :: rest =>
    if decide (y.2 < x.2) || (decide (x.2 = y.2) && memLt y.1 x.1) then
      x :: y :: rest
    else
      y :: insertDesc x rest

/-- Sort for ZREVRANGE: descending score, ties in descending lexical
member order. -/
def sortDesc : List (String × Int) → List (String × Int)
  | [] => []
  | x :: rest => insertDesc x (sortDesc rest)

/-- The store behind the pure client: one sorted set (member to score,
keys unique) and one hash (member to stored string). -/
structure Store where
  scores : List (String × Int)
  infos : List (String × List Char)
deriving DecidableEq

/-- The empty store. -/
def emptyStore : Store := { scores := [], infos := [] }

/-- The deterministic client: redis semantics on `Store`, never failing
except with `redis.Nil` for absent members/fields.  The key arguments are
ignored: the store models the data of the single leaderboard and hash this
package addresses.  The range call models ZREVRANGE for the offset shapes
the code issues (`0 ≤ start`, `stop = start + pageSize - 1`). -/
def pureCli : RedisCli Store where
  zRevRank := fun s _ member =>
    match lookupA member s.scores with
    | none => (Except.error GoErr.redisNil, s)
    | some sc => (Except.ok (zrevCount s.scores member sc), s)
  zScore := fun s _ member =>
    match lookupA member s.scores with
    | none => (Except.error GoErr.redisNil, s)
    | some sc => (Except.ok sc, s)
  zAdd := fun s _ member score =>
    (Except.ok (if (lookupA member s.scores).isSome then 0 else 1),
      { s with scores := setAssoc member score s.scores })
  zIncrBy := fun s _ delta member =>
    let newScore := (lookupA member s.scores).getD 0 + delta
    (Except.ok newScore, { s with scores := setAssoc member newScore s.scores })
  zCard := fun s _ => (Except.ok s.scores.length, s)
  zCount := fun s _ => (Except.ok s.scores.length, s)
  zRevRangeWithScores := fun s _ start stop =>
    (Except.ok (((sortDesc s.scores).drop start.toNat).take (stop + 1 - start).toNat), s)
  hGet := fun s _ field =>
    match lookupA field s.infos with
    | none => (Except.error GoErr.redisNil, s)
    | some v => (Except.ok v, s)
  hSet := fun s _ field value =>
    (Except.ok (if (lookupA field s.infos).isSome then 0 else 1),
      { s with infos := setAssoc field value s.infos })

/-- A fixed leaderboard configuration with page size 10 for the concrete
evaluations. -/
def lb10 : Leaderboard :=
  { redisSettings := { host := "127.0.0.1:6379", password := "", db := 0 },
    pageSize := 10, mode := "", leaderboardName := "lb", userInfoHashName := "info" }

/-- The three-member store of the README/spec example, in insertion
order. -/
def store3 : Store :=
  { scores := [("12345", 33), ("45678", 44), ("111", 12)], infos := [] }

/-- The characters acceptable inside the stored quoted strings: printable
escape-free ASCII, neither a double quote nor a backslash. -/
def goodB64Char (c : Char) : Bool :=
  c != quoteChar && c != backslashChar && decide (32 ≤ c.toNat) && decide (c.toNat < 127)

/-! ## Theorems -/

/-- Claim C1 (code bug): with `delta = 0` on a member that never existed,
`IncrementMemberScore` does not fail with
`ErrIncrementByMustBePositiveInteger`; the guard on leaderboard.go line
307 is `incrementBy < 0`, so the call reaches ZIncrBy, creates the member
with score 0, and returns it with rank 1 and no error. -/
theorem increment_zero_delta_creates_member :
    IncrementMemberScore pureCli lb10 emptyStore "x" 0 =
      (Except.ok { userID := "x", score := 0, rank := 1, additionalInfo := none },
        { scores := [("x", 0)], infos := [] }) := by rfl

/-- Claim C2 (code bug): on the three-member example with page size 10,
`GetLeaders 1` returns the three expected users only after ten zero-valued
`User{}` entries, because leaderboard.go line 320 pre-fills the slice with
`make([]User, pageSize)` and the loop appends after them. -/
theorem getLeaders_example_prepends_zero_users :
    GetLeaders pureCli lb10 store3 1 =
      (Except.ok (List.replicate 10 zeroUser ++
        [{ userID := "45678", score := 44, rank := 1, additionalInfo := none },
         { userID := "12345", score := 33, rank := 2, additionalInfo := none },
         { userID := "111", score := 12, rank := 3, additionalInfo := none }]), store3) := by rfl

/-- Claim C5 (code bug): on an empty leaderboard with page size 10,
`GetLeaders 1` returns ten zero-valued `User{}` entries instead of the
empty sequence, again because of `make([]User, pageSize)` on
leaderboard.go line 320. -/
theorem getLeaders_empty_returns_padded_list :
    GetLeaders pureCli lb10 emptyStore 1 =
      (Except.ok (List.replicate 10 zeroUser), emptyStore) := rfl

/-- Claim C7: for a member absent from the sorted set, `GetMember` returns
no error and a `User` with the sentinel rank `UnrankedMember = -1` and a
zero score, for either value of `withInfo`. -/
theorem getMember_absent_unranked (lb : Leaderboard) (s : Store) (userID : String)
    (withInfo : Bool) (h : lookupA userID s.scores = none) :
    GetMember pureCli lb s userID withInfo =
      (Except.ok { userID := userID, score := 0, rank := -1, additionalInfo := none }, s) := by
  simp [GetMember, getMemberRank, pureCli, h, UnrankedMember]

/-- Witness for `getMember_absent_unranked` at the concrete input of the
spec example: `GetMember "nobody" true` on the three-member store. -/
theorem getMember_absent_unranked_witness :
    lookupA "nobody" store3.scores = none ∧
      GetMember pureCli lb10 store3 "nobody" true =
        (Except.ok { userID := "nobody", score := 0, rank := -1, additionalInfo := none },
          store3) :=
  ⟨by decide, getMember_absent_unranked lb10 store3 "nobody" true (by decide)⟩

/-- Claim C8: `GetMember` with `withInfo = false` never invokes the
metadata store: its result and final state are unchanged under an
arbitrary replacement of the client's `hGet` operation. -/
theorem getMember_no_metadata_call {σ : Type} (cli : RedisCli σ)
    (g : σ → String → String → Except GoErr (List Char) × σ)
    (lb : Leaderboard) (s : σ) (userID : String) :
    GetMember cli lb s userID false = GetMember { cli with hGet := g } lb s userID false := rfl

/-- Claim C10: `NewLeaderboard` never returns an error, for any settings,
mode string, names, and page size; a page size outside {10, 25, 50, 100}
is replaced by the default 25 (and lines 66-68 replace an unrecognized
mode by `DevMode` in the local variable, which the returned struct does
not retain: its `mode` field is the zero value). -/
theorem newLeaderboard_never_fails (rs : RedisSettings) (mode name hash : String) (ps : Int) :
    NewLeaderboard rs mode name hash ps =
      Except.ok { redisSettings := rs,
                  pageSize := if ps = 10 ∨ ps = 25 ∨ ps = 50 ∨ ps = 100 then ps else 25,
                  mode := "", leaderboardName := name, userInfoHashName := hash } := by
  simp [NewLeaderboard, allowedPageSizes, DefaultPageSize, Bool.or_eq_true, beq_iff_eq, or_assoc]

/-- Claim C3: `FirstOrInsertMember` on a member already present with score
`sc` returns that stored score (the argument `x` is discarded) and leaves
the whole store untouched. -/
theorem firstOrInsertMember_existing_keeps_score (lb : Leaderboard) (s : Store)
    (userID : String) (sc x : Int) (h : lookupA userID s.scores = some sc) :
    FirstOrInsertMember pureCli lb s userID x =
      (Except.ok { userID := userID, score := sc,
                   rank := (zrevCount s.scores userID sc : Int) + 1, additionalInfo := none },
        s) := by
  have hpos : (0 : Int) < (zrevCount s.scores userID sc : Int) + 1 := by omega
  simp [FirstOrInsertMember, getMemberRank, getMemberScore, pureCli, h, hpos]

/-- Witness for `firstOrInsertMember_existing_keeps_score`: re-inserting
`"12345"` with 999 on the three-member store keeps score 33 and the
store. -/
theorem firstOrInsertMember_existing_keeps_score_witness :
    lookupA "12345" store3.scores = some 33 ∧
      FirstOrInsertMember pureCli lb10 store3 "12345" 999 =
        (Except.ok { userID := "12345", score := 33, rank := 2, additionalInfo := none },
          store3) := by
  refine ⟨rfl, ?_⟩
  have h := firstOrInsertMember_existing_keeps_score lb10 store3 "12345" 33 999 rfl
  exact h.trans (by rfl)

/-- Claim C6: against the deterministic store, `TotalPages` is the ceiling
of the member count divided by the configured page size (`(n + p - 1) / p`
in natural division), hence 0 on an empty leaderboard. -/
theorem totalPages_is_ceil_div (lb : Leaderboard) (s : Store)
    (h : allowedPageSizes lb.pageSize = true) :
    TotalPages pureCli lb s =
      ((((s.scores.length + lb.pageSize.toNat - 1) / lb.pageSize.toNat : Nat) : Int), s) := by
  have h4 : lb.pageSize = 10 ∨ lb.pageSize = 25 ∨ lb.pageSize = 50 ∨ lb.pageSize = 100 := by
    simpa [allowedPageSizes, Bool.or_eq_true, beq_iff_eq, or_assoc] using h
  simp only [TotalPages, pureCli, goCeilDiv, Prod.mk.injEq]
  refine ⟨?_, trivial⟩
  rcases h4 with h1 | h1 | h1 | h1 <;> rw [h1] <;> norm_num

/-- Witness for `totalPages_is_ceil_div`: three members at page size 10
give one page, and the empty store gives zero pages. -/
theorem totalPages_is_ceil_div_witness :
    allowedPageSizes lb10.pageSize = true ∧
      TotalPages pureCli lb10 store3 = (1, store3) ∧
      TotalPages pureCli lb10 emptyStore = (0, emptyStore) := by
  refine ⟨rfl, ?_, ?_⟩
  · exact (totalPages_is_ceil_div lb10 store3 rfl).trans (by rfl)
  · exact (totalPages_is_ceil_div lb10 emptyStore rfl).trans (by rfl)

/-- Decoding inverts the alphabet table below index 64. -/
theorem b64val_b64char : ∀ v < 64, b64val (b64char v) = some v := by decide

/-- No alphabet character below index 64 is the padding character. -/
theorem b64char_ne_pad : ∀ v < 64, b64char v ≠ '=' := by decide

/-- Every alphabet character below index 64 is printable escape-free
ASCII. -/
theorem goodB64Char_b64char : ∀ v < 64, goodB64Char (b64char v) = true := by decide

/-- Standard base64 decoding inverts encoding on byte sequences. -/
theorem b64_roundtrip (l : List Nat) (h : ∀ b ∈ l, b < 256) :
    b64decode (b64encode l) = some l := by
  induction l using b64encode.induct with
  | case1 => rfl
  | case2 b0 =>
    have hb0 : b0 < 256 := h b0 (by simp)
    simp only [b64encode, b64decode]
    rw [if_pos (by simp)]
    rw [b64val_b64char _ (by omega), b64val_b64char _ (by omega)]
    simp only [Option.some.injEq, List.cons.injEq, and_true]
    omega
  | case3 b0 b1 =>
    have hb0 : b0 < 256 := h b0 (by simp)
    have hb1 : b1 < 256 := h b1 (by simp)
    simp only [b64encode, b64decode]
    rw [if_neg (by
      intro hcontra
      exact b64char_ne_pad (b1 % 16 * 4) (by omega) hcontra.2.1)]
    rw [if_pos (by simp)]
    rw [b64val_b64char _ (by omega), b64val_b64char _ (by omega), b64val_b64char _ (by omega)]
    simp only [Option.some.injEq, List.cons.injEq, and_true]
    omega
  | case4 b0 b1 b2 rest ih =>
    have hb0 : b0 < 256 := h b0 (by simp)
    have hb1 : b1 < 256 := h b1 (by simp)
    have hb2 : b2 < 256 := h b2 (by simp)
    have hrest : ∀ b ∈ rest, b < 256 := fun b hb => h b (by simp [hb])
    simp only [b64encode, b64decode]
    rw [if_neg (by
      intro hcontra
      exact b64char_ne_pad (b1 % 16 * 4 + b2 / 64) (by omega) hcontra.2.1)]
    rw [if_neg (by
      intro hcontra
      exact b64char_ne_pad (b2 % 64) (by omega) hcontra.2)]
    rw [b64val_b64char _ (by omega), b64val_b64char _ (by omega),
      b64val_b64char _ (by omega), b64val_b64char _ (by omega), ih hrest]
    simp only [Option.some.injEq, List.cons.injEq]
    refine ⟨by omega, by omega, by omega, trivial⟩

/-- Encoded byte sequences contain only printable escape-free ASCII
characters, in particular no double quote and no backslash. -/
theorem b64encode_all_good (l : List Nat) (h : ∀ b ∈ l, b < 256) :
    (b64encode l).all goodB64Char = true := by
  induction l using b64encode.induct with
  | case1 => rfl
  | case2 b0 =>
    have hb0 : b0 < 256 := h b0 (by simp)
    simp only [b64encode, List.all_cons, List.all_nil, Bool.and_true, Bool.and_eq_true]
    exact ⟨goodB64Char_b64char _ (by omega), goodB64Char_b64char _ (by omega), rfl, rfl⟩
  | case3 b0 b1 =>
    have hb0 : b0 < 256 := h b0 (by simp)
    have hb1 : b1 < 256 := h b1 (by simp)
    simp only [b64encode, List.all_cons, List.all_nil, Bool.and_true, Bool.and_eq_true]
    exact ⟨goodB64Char_b64char _ (by omega), goodB64Char_b64char _ (by omega),
      goodB64Char_b64char _ (by omega), rfl⟩
  | case4 b0 b1 b2 rest ih =>
    have hb0 : b0 < 256 := h b0 (by simp)
    have hb1 : b1 < 256 := h b1 (by simp)
    have hb2 : b2 < 256 := h b2 (by simp)
    have hrest : ∀ b ∈ rest, b < 256 := fun b hb => h b (by simp [hb])
    simp only [b64encode, List.all_cons, Bool.and_eq_true]
    exact ⟨goodB64Char_b64char _ (by omega), goodB64Char_b64char _ (by omega),
      goodB64Char_b64char _ (by omega), goodB64Char_b64char _ (by omega), ih hrest⟩

/-- Unquoting strips the double quotes around an escape-free printable
body: the read side inverts the write-side quoting. -/
theorem goUnquote_wraps (enc : List Char) (h : enc.all goodB64Char = true) :
    goUnquote (quoteChar :: (enc ++ [quoteChar])) = some enc := by
  have hlen : 2 ≤ (quoteChar :: (enc ++ [quoteChar])).length := by
    simp
  have hdrop : (quoteChar :: (enc ++ [quoteChar])).drop 1 = enc ++ [quoteChar] := rfl
  have hdl : (enc ++ [quoteChar]).dropLast = enc := by
    simp
  have hgl : (quoteChar :: (enc ++ [quoteChar])).getLast? = some quoteChar := by
    rw [← List.cons_append]
    exact List.getLast?_concat _
  unfold goUnquote
  rw [hdrop, hdl]
  rw [if_pos ?_]
  refine ⟨hlen, rfl, hgl, ?_⟩
  exact h

/-- Looking up a key immediately after setting it yields the new value. -/
theorem lookupA_setAssoc_self (k : String) (v : α) (l : List (String × α)) :
    lookupA k (setAssoc k v l) = some v := by
  induction l with
  | nil => simp [setAssoc, lookupA]
  | cons p rest ih =>
    by_cases hk : p.1 = k
    · simp [setAssoc, lookupA, hk]
    · simp [setAssoc, lookupA, hk, ih]

/-- Claim C9: for every non-empty byte payload, `GetMemberInfo` after
`UpsertMemberInfo` returns exactly the payload: the write side (JSON
marshalling of a byte slice into a quoted standard-base64 string) is
inverted by the read side (unquote, then base64-decode). -/
theorem memberInfo_roundtrip (lb : Leaderboard) (s : Store) (userID : String)
    (payload : List Nat) (_hne : payload ≠ []) (hbytes : ∀ b ∈ payload, b < 256) :
    UpsertMemberInfo pureCli lb s userID (some payload) =
      (Except.ok (), { s with infos := setAssoc userID (jsonMarshalBytes (some payload)) s.infos }) ∧
    GetMemberInfo pureCli lb
        { s with infos := setAssoc userID (jsonMarshalBytes (some payload)) s.infos } userID =
      (Except.ok payload,
        { s with infos := setAssoc userID (jsonMarshalBytes (some payload)) s.infos }) := by
  constructor
  · simp [UpsertMemberInfo, pureCli]
  · simp only [GetMemberInfo, pureCli, lookupA_setAssoc_self]
    rw [show jsonMarshalBytes (some payload) = quoteChar :: (b64encode payload ++ [quoteChar]) from rfl]
    rw [goUnquote_wraps _ (b64encode_all_good payload hbytes)]
    simp [b64_roundtrip payload hbytes]

/-- Witness for `memberInfo_roundtrip` at the payload `"hello"` (bytes
104 101 108 108 111) stored under `"u"` in the empty store. -/
theorem memberInfo_roundtrip_witness :
    ([104, 101, 108, 108, 111] : List Nat) ≠ [] ∧
    UpsertMemberInfo pureCli lb10 emptyStore "u" (some [104, 101, 108, 108, 111]) =
      (Except.ok (),
        { emptyStore with infos := setAssoc "u" (jsonMarshalBytes (some [104, 101, 108, 108, 111])) [] }) ∧
    GetMemberInfo pureCli lb10
        { emptyStore with infos := setAssoc "u" (jsonMarshalBytes (some [104, 101, 108, 108, 111])) [] } "u" =
      (Except.ok [104, 101, 108, 108, 111],
        { emptyStore with infos := setAssoc "u" (jsonMarshalBytes (some [104, 101, 108, 108, 111])) [] }) := by
  have h := memberInfo_roundtrip lb10 emptyStore "u" [104, 101, 108, 108, 111]
    (by decide) (by decide)
  exact ⟨by decide, h.1, h.2⟩
